import Mathlib

/-!
Verification of the SLB EV-charger economic comparison tool.

The repository contains three near-identical script variants:
`V3.py`, and `v4.py` which holds two scripts (a middle variant on
lines 1-112 and the richest, feed-in variant on lines 114-234).
All monetary arithmetic is embedded over `ℚ`; the year-indexed
cash-flow lists are built exactly as the Python loops build them,
including the in-place residual-value addition to the last element.
-/

namespace SLB

/-- The scalar input parameters read from the sidebar (all variants;
the feed-in fields are used only by the richest variant). -/
structure Params where
  analysis_years : ℕ
  discount_rate : ℚ
  inflation_rate : ℚ
  residual_value_percent : ℚ
  ev_battery_capacity : ℚ
  ev_charge_percent : ℚ
  ev_charging_sessions : ℚ
  ev_days_no_charging : ℚ
  feed_in_efficiency : ℚ
  slb_capex_pv : ℚ
  slb_capex_battery : ℚ
  slb_opex : ℚ
  electricity_price : ℚ

/-- `monthly_consumption = ev_battery_capacity * (ev_charge_percent / 100) * ev_charging_sessions`. -/
def monthly_consumption (p : Params) : ℚ :=
  p.ev_battery_capacity * (p.ev_charge_percent / 100) * p.ev_charging_sessions

/-- `annual_energy = monthly_consumption * 12`. -/
def annual_energy (p : Params) : ℚ := monthly_consumption p * 12

/-- `feed_in_tariff = 0.7 * electricity_price` (richest variant). -/
def feed_in_tariff (p : Params) : ℚ := (7 / 10) * p.electricity_price

/-- `energy_for_sale_per_month = ev_battery_capacity * (1 - ev_charge_percent/100) * ev_days_no_charging * feed_in_efficiency`. -/
def energy_for_sale_per_month (p : Params) : ℚ :=
  p.ev_battery_capacity * (1 - p.ev_charge_percent / 100) * p.ev_days_no_charging *
    p.feed_in_efficiency

/-- `slb_total_capex = slb_capex_pv + slb_capex_battery`. -/
def slb_total_capex (p : Params) : ℚ := p.slb_capex_pv + p.slb_capex_battery

/-- `escalated_cost = (electricity_price * (1 + inflation_rate) ** (year - 1)) * annual_energy`,
computed inside the per-year loops for `year` in `1..analysis_years`. -/
def escalated_cost (p : Params) (year : ℕ) : ℚ :=
  p.electricity_price * (1 + p.inflation_rate) ^ (year - 1) * annual_energy p

/-- `escalated_revenue = (feed_in_tariff * (1 + inflation_rate) ** (year - 1)) * energy_for_sale_per_month * 12` (richest variant). -/
def escalated_revenue (p : Params) (year : ℕ) : ℚ :=
  feed_in_tariff p * (1 + p.inflation_rate) ^ (year - 1) * energy_for_sale_per_month p * 12

/-- `residual_value = residual_value_percent * slb_total_capex`. -/
def residual_value (p : Params) : ℚ := p.residual_value_percent * slb_total_capex p

/-- `lst[-1] += v`: the Python in-place addition of a value to the last
element of a list, as done for the residual value. -/
def addLast (v : ℚ) : List ℚ → List ℚ
  | [] => []
  | [x] => [x + v]
  | x :: y :: rest => x :: addLast v (y :: rest)

/-- The nominal SLB cash-flow list as it stands at the end of the
`for year in years` loop of the richest variant (v4.py lines 161-168):
`[-slb_total_capex]` followed by
`(escalated_cost + escalated_revenue) - slb_opex` for each year. -/
def slb_cashflows_loop (p : Params) : List ℚ :=
  -slb_total_capex p ::
    (List.range p.analysis_years).map (fun i =>
      (escalated_cost p (i + 1) + escalated_revenue p (i + 1)) - p.slb_opex)

/-- `slb_cashflows` after `slb_cashflows[-1] += residual_value` (v4.py line 171). -/
def slb_cashflows (p : Params) : List ℚ :=
  addLast (residual_value p) (slb_cashflows_loop p)

/-- The discounted SLB cash-flow list as it stands at the end of the loop
(v4.py lines 160-167): each year's `cashflow / (1 + discount_rate) ** year`. -/
def fc_slb_loop (p : Params) : List ℚ :=
  -slb_total_capex p ::
    (List.range p.analysis_years).map (fun i =>
      ((escalated_cost p (i + 1) + escalated_revenue p (i + 1)) - p.slb_opex) /
        (1 + p.discount_rate) ^ (i + 1))

/-- `fc_slb` after `fc_slb[-1] += residual_value / (1 + discount_rate) ** analysis_years`
(v4.py line 170). -/
def fc_slb (p : Params) : List ℚ :=
  addLast (residual_value p / (1 + p.discount_rate) ^ p.analysis_years) (fc_slb_loop p)

/-- Nominal grid-only cash flows (v4.py lines 176-181): `[0]` followed by
`-escalated_cost` for each year. -/
def ongrid_cashflows (p : Params) : List ℚ :=
  0 :: (List.range p.analysis_years).map (fun i => -escalated_cost p (i + 1))

/-- Discounted grid-only cash flows (v4.py lines 175-180):
`-escalated_cost / (1 + discount_rate) ** year`. -/
def fc_ongrid (p : Params) : List ℚ :=
  0 :: (List.range p.analysis_years).map (fun i =>
    -escalated_cost p (i + 1) / (1 + p.discount_rate) ^ (i + 1))

/-- Helper for `np.cumsum`: running sums with accumulator. -/
def cumsumAux (acc : ℚ) : List ℚ → List ℚ
  | [] => []
  | v :: rest => (acc + v) :: cumsumAux (acc + v) rest

/-- `np.cumsum`: the list of running sums, same length as the input. -/
def cumsum (l : List ℚ) : List ℚ := cumsumAux 0 l

/-- Helper for `npf.npv`: sums `v / (1 + rate) ** i` with `i` counting from
the given start index. -/
def npvAux (rate : ℚ) : ℕ → List ℚ → ℚ
  | _, [] => 0
  | i, v :: rest => v / (1 + rate) ^ i + npvAux rate (i + 1) rest

/-- `calculate_npv(cashflows, rate) = npf.npv(rate, cashflows)`:
the sum of `cashflows[i] / (1 + rate) ** i` for `i = 0..len-1`. -/
def calculate_npv (rate : ℚ) (cashflows : List ℚ) : ℚ := npvAux rate 0 cashflows

/-- Helper for `calculate_payback`: the running cumulative sum and the
current index are threaded through the loop. -/
def paybackAux (cum : ℚ) (i : ℕ) : List ℚ → Option ℕ
  | [] => none
  | v :: rest => if 0 ≤ cum + v then some i else paybackAux (cum + v) (i + 1) rest

/-- `calculate_payback(cashflows)` (v4.py lines 194-200): returns the first
index at which the running sum of the cash flows is `>= 0`, else `None`. -/
def calculate_payback (cashflows : List ℚ) : Option ℕ := paybackAux 0 0 cashflows

/-- Helper for `calculate_crossover`: scans the zipped series. -/
def crossoverAux (i : ℕ) : List (ℚ × ℚ) → Option ℕ
  | [] => none
  | sg :: rest => if sg.2 < sg.1 then some i else crossoverAux (i + 1) rest

/-- `calculate_crossover(results_slb, results_ongrid)` (v4.py lines 202-206):
the first index of the zipped cumulative series where the SLB value strictly
exceeds the grid-only value, else `None`. -/
def calculate_crossover (results_slb results_ongrid : List ℚ) : Option ℕ :=
  crossoverAux 0 (results_slb.zip results_ongrid)

/-- `calculate_irr(cashflows)` (v4.py lines 185-189). The underlying
`npf.irr` root-finder is a third-party library routine, modeled here as an
abstract function that either yields a rate or fails; the `try/except`
wrapper maps any failure to `None`. -/
def calculate_irr (irrImpl : List ℚ → Except Unit ℚ) (cashflows : List ℚ) : Option ℚ :=
  match irrImpl cashflows with
  | Except.ok r => some r
  | Except.error _ => none

/-- The block of metric results computed by v4.py lines 208-216. -/
structure Metrics where
  irr_slb : Option ℚ
  npv_slb : ℚ
  pb_slb : Option ℕ
  irr_ongrid : Option ℚ
  npv_ongrid : ℚ
  pb_ongrid : Option ℕ
  crossover_point : Option ℕ

/-- The metrics block of the richest variant (v4.py lines 208-216),
parameterized by the abstract `npf.irr` root-finder. -/
def computeMetrics (irrImpl : List ℚ → Except Unit ℚ) (p : Params) : Metrics :=
  { irr_slb := calculate_irr irrImpl (slb_cashflows p)
    npv_slb := calculate_npv p.discount_rate (slb_cashflows p)
    pb_slb := calculate_payback (slb_cashflows p)
    irr_ongrid := calculate_irr irrImpl (ongrid_cashflows p)
    npv_ongrid := calculate_npv p.discount_rate (ongrid_cashflows p)
    pb_ongrid := calculate_payback (ongrid_cashflows p)
    crossover_point := calculate_crossover (cumsum (fc_slb p)) (cumsum (fc_ongrid p)) }

namespace V3

/-- The discounted SLB list of V3.py (lines 41-45): the loop computes
`escalated_cost / (1+discount_rate)**year - slb_opex / (1+discount_rate)**year`
directly (no feed-in revenue in this variant). -/
def fc_slb_loop (p : Params) : List ℚ :=
  -slb_total_capex p ::
    (List.range p.analysis_years).map (fun i =>
      escalated_cost p (i + 1) / (1 + p.discount_rate) ^ (i + 1) -
        p.slb_opex / (1 + p.discount_rate) ^ (i + 1))

/-- V3.py `fc_slb` after `fc_slb[-1] += residual_value / (1+discount_rate)**analysis_years`
(line 48). -/
def fc_slb (p : Params) : List ℚ :=
  addLast (residual_value p / (1 + p.discount_rate) ^ p.analysis_years) (fc_slb_loop p)

end V3

namespace V4mid

/-- The discounted SLB list of the middle variant (v4.py lines 42-48): the
loop computes `cashflow = escalated_cost - slb_opex` and then discounts the
net, `cashflow / (1 + discount_rate) ** year`. -/
def fc_slb_loop (p : Params) : List ℚ :=
  -slb_total_capex p ::
    (List.range p.analysis_years).map (fun i =>
      (escalated_cost p (i + 1) - p.slb_opex) / (1 + p.discount_rate) ^ (i + 1))

/-- Middle-variant `fc_slb` after the residual-value addition (v4.py line 52). -/
def fc_slb (p : Params) : List ℚ :=
  addLast (residual_value p / (1 + p.discount_rate) ^ p.analysis_years) (fc_slb_loop p)

end V4mid

/-- A concrete parameter assignment used to instantiate hypothesis-bearing
theorems on an explicit input. -/
def paramsW : Params where
  analysis_years := 2
  discount_rate := 1
  inflation_rate := 1
  residual_value_percent := 1 / 2
  ev_battery_capacity := 10
  ev_charge_percent := 50
  ev_charging_sessions := 2
  ev_days_no_charging := 3
  feed_in_efficiency := 1 / 2
  slb_capex_pv := 100
  slb_capex_battery := 50
  slb_opex := 5
  electricity_price := 1 / 2

/-- A concrete input with zero total CAPEX: the two cumulative discounted
series tie at year 0, so the crossover year is preceded by equality rather
than strict inequality. -/
def params_tie : Params where
  analysis_years := 5
  discount_rate := 0
  inflation_rate := 0
  residual_value_percent := 0
  ev_battery_capacity := 10
  ev_charge_percent := 100
  ev_charging_sessions := 1
  ev_days_no_charging := 0
  feed_in_efficiency := 1
  slb_capex_pv := 0
  slb_capex_battery := 0
  slb_opex := 0
  electricity_price := 1

/-- A concrete input on which every cash flow of both scenarios is zero, so
NPV and the discounted series are unchanged by a change of discount rate. -/
def params_zero : Params where
  analysis_years := 2
  discount_rate := 0
  inflation_rate := 0
  residual_value_percent := 0
  ev_battery_capacity := 10
  ev_charge_percent := 100
  ev_charging_sessions := 1
  ev_days_no_charging := 0
  feed_in_efficiency := 1
  slb_capex_pv := 0
  slb_capex_battery := 0
  slb_opex := 0
  electricity_price := 0

/-- A concrete input whose SLB NPV differs between discount rates 0 and 1. -/
def params_npv : Params where
  analysis_years := 2
  discount_rate := 0
  inflation_rate := 0
  residual_value_percent := 0
  ev_battery_capacity := 10
  ev_charge_percent := 100
  ev_charging_sessions := 1
  ev_days_no_charging := 0
  feed_in_efficiency := 1
  slb_capex_pv := 100
  slb_capex_battery := 0
  slb_opex := 0
  electricity_price := 1

/-- An `npf.irr` stand-in that always fails, modeling a root-finder that
raises on every input. -/
def implFail : List ℚ → Except Unit ℚ := fun _ => Except.error ()

lemma addLast_length (v : ℚ) : ∀ l : List ℚ, (addLast v l).length = l.length
  | [] => rfl
  | [_] => rfl
  | x :: y :: rest => by
    simp only [addLast, List.length_cons, addLast_length v (y :: rest)]

lemma addLast_getElem? (v : ℚ) : ∀ (l : List ℚ) (i : ℕ),
    (addLast v l)[i]? = if i + 1 = l.length then (l[i]?).map (· + v) else l[i]?
  | [], i => by simp [addLast]
  | [x], 0 => by simp [addLast]
  | [x], j + 1 => by simp [addLast]
  | x :: y :: rest, 0 => by
    have h : (0 : ℕ) + 1 ≠ (x :: y :: rest).length := by
      simp only [List.length_cons]
      omega
    simp [addLast, h]
  | x :: y :: rest, j + 1 => by
    have ih := addLast_getElem? v (y :: rest) j
    simp only [addLast, List.getElem?_cons_succ]
    rw [ih]
    simp only [List.length_cons]
    by_cases h : j + 1 = rest.length + 1
    · rw [if_pos h, if_pos (by omega)]
    · rw [if_neg h, if_neg (by omega)]

lemma addLast_sum (v : ℚ) : ∀ l : List ℚ, l ≠ [] → (addLast v l).sum = l.sum + v
  | [], h => absurd rfl h
  | [x], _ => by simp [addLast]
  | x :: y :: rest, _ => by
    have ih := addLast_sum v (y :: rest) (by simp)
    simp only [addLast, List.sum_cons] at ih ⊢
    rw [ih]
    ring

lemma cons_map_range_getElem? (a : ℚ) (f : ℕ → ℚ) (n : ℕ) : ∀ i : ℕ,
    (a :: (List.range n).map f)[i]? =
      if i = 0 then some a else if i ≤ n then some (f (i - 1)) else none
  | 0 => by simp
  | j + 1 => by
    simp only [List.getElem?_cons_succ, List.getElem?_map]
    by_cases h : j < n
    · rw [List.getElem?_range h]
      simp only [Option.map_some']
      rw [if_neg (by omega), if_pos (by omega)]
      simp
    · rw [List.getElem?_eq_none (by simpa using Nat.le_of_not_lt h)]
      simp only [Option.map_none']
      rw [if_neg (by omega), if_neg (by omega)]

lemma cons_map_range_length (a : ℚ) (f : ℕ → ℚ) (n : ℕ) :
    (a :: (List.range n).map f).length = n + 1 := by
  simp

lemma cumsumAux_length (acc : ℚ) : ∀ l : List ℚ, (cumsumAux acc l).length = l.length
  | [] => rfl
  | v :: rest => by
    simp only [cumsumAux, List.length_cons, cumsumAux_length (acc + v) rest]

lemma cumsum_length (l : List ℚ) : (cumsum l).length = l.length :=
  cumsumAux_length 0 l

lemma cumsum_getElem?_zero (l : List ℚ) : (cumsum l)[0]? = l[0]? := by
  cases l with
  | nil => rfl
  | cons v rest => simp [cumsum, cumsumAux]

lemma cumsumAux_getLast? (acc : ℚ) : ∀ l : List ℚ, l ≠ [] →
    (cumsumAux acc l).getLast? = some (acc + l.sum)
  | [], h => absurd rfl h
  | [v], _ => by simp [cumsumAux]
  | v :: w :: rest, _ => by
    have ih := cumsumAux_getLast? (acc + v) (w :: rest) (by simp)
    simp only [cumsumAux] at ih ⊢
    rw [List.getLast?_cons_cons, ih]
    simp only [List.sum_cons]
    ring_nf

lemma cumsum_getLast? (l : List ℚ) (h : l ≠ []) : (cumsum l).getLast? = some l.sum := by
  rw [cumsum, cumsumAux_getLast? 0 l h, zero_add]

lemma npvAux_map_range (r : ℚ) : ∀ (n : ℕ) (f : ℕ → ℚ) (i : ℕ),
    npvAux r i ((List.range n).map f) =
      ((List.range n).map (fun j => f j / (1 + r) ^ (i + j))).sum
  | 0, f, i => by simp [npvAux]
  | n + 1, f, i => by
    rw [List.range_succ_eq_map]
    simp only [List.map_cons, List.map_map, npvAux, List.sum_cons, Function.comp_def,
      Nat.succ_eq_add_one]
    rw [npvAux_map_range r n (fun j => f (j + 1)) (i + 1)]
    congr 1
    apply congrArg List.sum
    apply List.map_congr_left
    intro a _
    have hexp : i + 1 + a = i + (a + 1) := by omega
    rw [hexp]

lemma npvAux_addLast (r v : ℚ) : ∀ (l : List ℚ) (i : ℕ), l ≠ [] →
    npvAux r i (addLast v l) = npvAux r i l + v / (1 + r) ^ (i + (l.length - 1))
  | [], _, h => absurd rfl h
  | [x], i, _ => by simp [addLast, npvAux, add_div]
  | x :: y :: rest, i, _ => by
    have ih := npvAux_addLast r v (y :: rest) (i + 1) (by simp)
    simp only [addLast, npvAux] at ih ⊢
    rw [ih]
    have hexp : i + 1 + ((y :: rest).length - 1) = i + ((x :: y :: rest).length - 1) := by
      simp only [List.length_cons]
      omega
    rw [hexp]
    ring

lemma paybackAux_eq_some (y : ℕ) : ∀ (l : List ℚ) (cum : ℚ) (i0 : ℕ),
    paybackAux cum i0 l = some y ↔
      ∃ j, j < l.length ∧ y = i0 + j ∧ 0 ≤ cum + (l.take (j + 1)).sum ∧
        ∀ k < j, cum + (l.take (k + 1)).sum < 0
  | [], cum, i0 => by simp [paybackAux]
  | v :: rest, cum, i0 => by
    by_cases h : 0 ≤ cum + v
    · simp only [paybackAux, if_pos h]
      constructor
      · intro hy
        have hy' : y = i0 := by simpa using hy.symm
        subst hy'
        exact ⟨0, by simp, by omega, by simpa using h, by omega⟩
      · rintro ⟨j, hj, rfl, hge, hlt⟩
        rcases Nat.eq_zero_or_pos j with rfl | hj0
        · simp
        · exfalso
          have h0 := hlt 0 hj0
          simp only [List.take_succ_cons, List.take_zero, List.sum_cons, List.sum_nil,
            add_zero] at h0
          exact absurd h h0.not_le
    · simp only [paybackAux, if_neg h]
      rw [paybackAux_eq_some y rest (cum + v) (i0 + 1)]
      constructor
      · rintro ⟨j', hj', rfl, hge, hlt⟩
        refine ⟨j' + 1, by simp only [List.length_cons]; omega, by omega, ?_, ?_⟩
        · simpa [List.take_succ_cons, List.sum_cons, add_assoc] using hge
        · intro k hk
          cases k with
          | zero =>
            simpa using lt_of_not_le h
          | succ k' =>
            have hk' := hlt k' (by omega)
            simpa [List.take_succ_cons, List.sum_cons, add_assoc] using hk'
      · rintro ⟨j, hj, rfl, hge, hlt⟩
        cases j with
        | zero =>
          exfalso
          simp only [List.take_succ_cons, List.take_zero, List.sum_cons, List.sum_nil,
            add_zero] at hge
          exact absurd hge h
        | succ j' =>
          refine ⟨j', by simp only [List.length_cons] at hj; omega, by omega, ?_, ?_⟩
          · simpa [List.take_succ_cons, List.sum_cons, add_assoc] using hge
          · intro k hk
            have hk1 := hlt (k + 1) (by omega)
            simpa [List.take_succ_cons, List.sum_cons, add_assoc] using hk1

lemma paybackAux_eq_none : ∀ (l : List ℚ) (cum : ℚ) (i0 : ℕ),
    paybackAux cum i0 l = none ↔ ∀ j < l.length, cum + (l.take (j + 1)).sum < 0
  | [], cum, i0 => by simp [paybackAux]
  | v :: rest, cum, i0 => by
    by_cases h : 0 ≤ cum + v
    · simp only [paybackAux, if_pos h]
      constructor
      · intro hc
        exact absurd hc (by simp)
      · intro hall
        have h0 := hall 0 (by simp)
        simp only [List.take_succ_cons, List.take_zero, List.sum_cons, List.sum_nil,
          add_zero] at h0
        exact absurd h h0.not_le
    · simp only [paybackAux, if_neg h]
      rw [paybackAux_eq_none rest (cum + v) (i0 + 1)]
      constructor
      · intro hall j hj
        cases j with
        | zero =>
          simpa using lt_of_not_le h
        | succ j' =>
          have hj' := hall j' (by simp only [List.length_cons] at hj; omega)
          simpa [List.take_succ_cons, List.sum_cons, add_assoc] using hj'
      · intro hall j hj
        have hj1 := hall (j + 1) (by simp only [List.length_cons]; omega)
        simpa [List.take_succ_cons, List.sum_cons, add_assoc] using hj1

lemma calculate_payback_eq_some (l : List ℚ) (y : ℕ) :
    calculate_payback l = some y ↔
      y < l.length ∧ 0 ≤ (l.take (y + 1)).sum ∧ ∀ k < y, (l.take (k + 1)).sum < 0 := by
  rw [calculate_payback, paybackAux_eq_some]
  constructor
  · rintro ⟨j, hj, hyj, hge, hlt⟩
    have hyj' : y = j := by omega
    subst hyj'
    refine ⟨hj, by simpa using hge, fun k hk => ?_⟩
    simpa using hlt k hk
  · rintro ⟨hy, hge, hlt⟩
    exact ⟨y, hy, by omega, by simpa using hge, fun k hk => by simpa using hlt k hk⟩

lemma calculate_payback_eq_none (l : List ℚ) :
    calculate_payback l = none ↔ ∀ j < l.length, (l.take (j + 1)).sum < 0 := by
  rw [calculate_payback, paybackAux_eq_none]
  constructor
  · intro hall j hj
    simpa using hall j hj
  · intro hall j hj
    simpa using hall j hj

lemma take_sum_le_of_getElem?_le : ∀ (l1 l2 : List ℚ), l1.length = l2.length →
    (∀ (i : ℕ) (a b : ℚ), l1[i]? = some a → l2[i]? = some b → b ≤ a) →
    ∀ m, (l2.take m).sum ≤ (l1.take m).sum
  | [], [], _, _, m => by simp
  | [], x :: _, h, _, _ => by simp at h
  | x :: _, [], h, _, _ => by simp at h
  | a :: t1, b :: t2, hlen, hle, m => by
    cases m with
    | zero => simp
    | succ m' =>
      have hab : b ≤ a := hle 0 a b (by simp) (by simp)
      have ht : ∀ (i : ℕ) (a' b' : ℚ), t1[i]? = some a' → t2[i]? = some b' → b' ≤ a' :=
        fun i a' b' h1 h2 => hle (i + 1) a' b' (by simpa) (by simpa)
      have hrec := take_sum_le_of_getElem?_le t1 t2 (by simpa using hlen) ht m'
      simp only [List.take_succ_cons, List.sum_cons]
      exact add_le_add hab hrec

lemma calculate_payback_mono (l1 l2 : List ℚ) (hlen : l1.length = l2.length)
    (hdom : ∀ m, (l2.take m).sum ≤ (l1.take m).sum) (y2 : ℕ)
    (h2 : calculate_payback l2 = some y2) :
    ∃ y1, y1 ≤ y2 ∧ calculate_payback l1 = some y1 := by
  rw [calculate_payback_eq_some] at h2
  obtain ⟨hy2len, hge, _⟩ := h2
  have hP : ∃ j, 0 ≤ (l1.take (j + 1)).sum := ⟨y2, le_trans hge (hdom (y2 + 1))⟩
  classical
  refine ⟨Nat.find hP, Nat.find_le (le_trans hge (hdom (y2 + 1))), ?_⟩
  rw [calculate_payback_eq_some]
  refine ⟨?_, Nat.find_spec hP, fun k hk => ?_⟩
  · have : Nat.find hP ≤ y2 := Nat.find_le (le_trans hge (hdom (y2 + 1)))
    omega
  · exact lt_of_not_le (Nat.find_min hP hk)

lemma crossoverAux_eq_some (y : ℕ) : ∀ (l : List (ℚ × ℚ)) (i0 : ℕ),
    crossoverAux i0 l = some y ↔
      ∃ j, j < l.length ∧ y = i0 + j ∧
        (∀ k < j, ∀ sg : ℚ × ℚ, l[k]? = some sg → sg.1 ≤ sg.2) ∧
        ∃ sg : ℚ × ℚ, l[j]? = some sg ∧ sg.2 < sg.1
  | [], i0 => by simp [crossoverAux]
  | hd :: rest, i0 => by
    by_cases h : hd.2 < hd.1
    · simp only [crossoverAux, if_pos h]
      constructor
      · intro hy
        have hy' : y = i0 := by simpa using hy.symm
        subst hy'
        exact ⟨0, by simp, by omega, by omega, hd, by simp, h⟩
      · rintro ⟨j, hj, rfl, hlt, sg, hsg, hgt⟩
        rcases Nat.eq_zero_or_pos j with rfl | hj0
        · simp
        · exfalso
          have h0 := hlt 0 hj0 hd (by simp)
          exact absurd h h0.not_lt
    · simp only [crossoverAux, if_neg h]
      rw [crossoverAux_eq_some y rest (i0 + 1)]
      constructor
      · rintro ⟨j', hj', rfl, hlt, sg, hsg, hgt⟩
        refine ⟨j' + 1, by simp only [List.length_cons]; omega, by omega, ?_,
          sg, by simpa using hsg, hgt⟩
        intro k hk sg' hsg'
        cases k with
        | zero =>
          have hEq : hd = sg' := by simpa using hsg'
          subst hEq
          exact le_of_not_lt h
        | succ k' =>
          exact hlt k' (by omega) sg' (by simpa using hsg')
      · rintro ⟨j, hj, rfl, hlt, sg, hsg, hgt⟩
        cases j with
        | zero =>
          exfalso
          have hEq : hd = sg := by simpa using hsg
          subst hEq
          exact absurd hgt h
        | succ j' =>
          refine ⟨j', by simp only [List.length_cons] at hj; omega, by omega, ?_,
            sg, by simpa using hsg, hgt⟩
          intro k hk sg' hsg'
          exact hlt (k + 1) (by omega) sg' (by simpa using hsg')

lemma crossoverAux_eq_none : ∀ (l : List (ℚ × ℚ)) (i0 : ℕ),
    crossoverAux i0 l = none ↔ ∀ k < l.length, ∀ sg : ℚ × ℚ, l[k]? = some sg → sg.1 ≤ sg.2
  | [], i0 => by simp [crossoverAux]
  | hd :: rest, i0 => by
    by_cases h : hd.2 < hd.1
    · simp only [crossoverAux, if_pos h]
      constructor
      · intro hc
        exact absurd hc (by simp)
      · intro hall
        have h0 := hall 0 (by simp) hd (by simp)
        exact absurd h h0.not_lt
    · simp only [crossoverAux, if_neg h]
      rw [crossoverAux_eq_none rest (i0 + 1)]
      constructor
      · intro hall k hk sg hsg
        cases k with
        | zero =>
          have hEq : hd = sg := by simpa using hsg
          subst hEq
          exact le_of_not_lt h
        | succ k' =>
          exact hall k' (by simp only [List.length_cons] at hk; omega) sg (by simpa using hsg)
      · intro hall k hk sg hsg
        exact hall (k + 1) (by simp only [List.length_cons]; omega) sg (by simpa using hsg)

lemma zip_getElem? : ∀ (l1 l2 : List ℚ) (i : ℕ),
    (l1.zip l2)[i]? = (l1[i]?).bind (fun a => (l2[i]?).map (fun b => (a, b)))
  | [], _, _ => by simp
  | _ :: _, [], _ => by simp
  | a :: t1, b :: t2, 0 => by simp [List.zip_cons_cons]
  | a :: t1, b :: t2, i + 1 => by
    simpa [List.zip_cons_cons] using zip_getElem? t1 t2 i

lemma addLast_cons_map_range_getElem? (a v : ℚ) (f : ℕ → ℚ) (n y : ℕ) :
    (addLast v (a :: (List.range n).map f))[y]? =
      if y = 0 then (if n = 0 then some (a + v) else some a)
      else if y ≤ n then some (f (y - 1) + (if y = n then v else 0)) else none := by
  rw [addLast_getElem?, cons_map_range_getElem?, cons_map_range_length]
  by_cases h0 : y = 0
  · subst h0
    by_cases hn : n = 0
    · subst hn
      simp
    · have hne : ¬(0 + 1 = n + 1) := by omega
      simp [hn, hne]
  · by_cases hyn : y ≤ n
    · by_cases hyeq : y = n
      · subst hyeq
        simp [h0]
      · have hne : ¬(y + 1 = n + 1) := by omega
        simp [h0, hyn, hyeq, hne]
    · have hne : ¬(y + 1 = n + 1) := by omega
      simp [h0, hyn, hne]

lemma slb_cashflows_loop_length (p : Params) :
    (slb_cashflows_loop p).length = p.analysis_years + 1 := by
  simp [slb_cashflows_loop]

lemma slb_cashflows_length (p : Params) :
    (slb_cashflows p).length = p.analysis_years + 1 := by
  rw [slb_cashflows, addLast_length, slb_cashflows_loop_length]

lemma fc_slb_loop_length (p : Params) :
    (fc_slb_loop p).length = p.analysis_years + 1 := by
  simp [fc_slb_loop]

lemma fc_slb_length (p : Params) :
    (fc_slb p).length = p.analysis_years + 1 := by
  rw [fc_slb, addLast_length, fc_slb_loop_length]

lemma ongrid_cashflows_length (p : Params) :
    (ongrid_cashflows p).length = p.analysis_years + 1 := by
  simp [ongrid_cashflows]

lemma fc_ongrid_length (p : Params) :
    (fc_ongrid p).length = p.analysis_years + 1 := by
  simp [fc_ongrid]

lemma slb_cashflows_getElem? (p : Params) (y : ℕ) :
    (slb_cashflows p)[y]? =
      if y = 0 then
        (if p.analysis_years = 0 then some (-slb_total_capex p + residual_value p)
         else some (-slb_total_capex p))
      else if y ≤ p.analysis_years then
        some (((escalated_cost p y + escalated_revenue p y) - p.slb_opex) +
          (if y = p.analysis_years then residual_value p else 0))
      else none := by
  rw [slb_cashflows, slb_cashflows_loop, addLast_cons_map_range_getElem?]
  by_cases h0 : y = 0
  · simp [h0]
  · by_cases hyn : y ≤ p.analysis_years
    · rw [if_neg h0, if_pos hyn, if_neg h0, if_pos hyn]
      have hy : y - 1 + 1 = y := by omega
      rw [hy]
    · simp [h0, hyn]

lemma fc_slb_getElem? (p : Params) (y : ℕ) :
    (fc_slb p)[y]? =
      if y = 0 then
        (if p.analysis_years = 0 then
          some (-slb_total_capex p +
            residual_value p / (1 + p.discount_rate) ^ p.analysis_years)
         else some (-slb_total_capex p))
      else if y ≤ p.analysis_years then
        some (((escalated_cost p y + escalated_revenue p y) - p.slb_opex) /
            (1 + p.discount_rate) ^ y +
          (if y = p.analysis_years then
            residual_value p / (1 + p.discount_rate) ^ p.analysis_years else 0))
      else none := by
  rw [fc_slb, fc_slb_loop, addLast_cons_map_range_getElem?]
  by_cases h0 : y = 0
  · simp [h0]
  · by_cases hyn : y ≤ p.analysis_years
    · rw [if_neg h0, if_pos hyn, if_neg h0, if_pos hyn]
      have hy : y - 1 + 1 = y := by omega
      rw [hy]
    · simp [h0, hyn]

lemma ongrid_cashflows_getElem? (p : Params) (y : ℕ) :
    (ongrid_cashflows p)[y]? =
      if y = 0 then some 0
      else if y ≤ p.analysis_years then some (-escalated_cost p y) else none := by
  rw [ongrid_cashflows, cons_map_range_getElem?]
  by_cases h0 : y = 0
  · simp [h0]
  · by_cases hyn : y ≤ p.analysis_years
    · rw [if_neg h0, if_pos hyn, if_neg h0, if_pos hyn]
      have hy : y - 1 + 1 = y := by omega
      rw [hy]
    · simp [h0, hyn]

lemma zip_getElem?_some_iff (l1 l2 : List ℚ) (i : ℕ) (sg : ℚ × ℚ) :
    (l1.zip l2)[i]? = some sg ↔ l1[i]? = some sg.1 ∧ l2[i]? = some sg.2 := by
  rw [zip_getElem?]
  cases h1 : l1[i]? <;> cases h2 : l2[i]? <;>
    simp [Prod.ext_iff, and_comm, eq_comm]

lemma cons_map_range_sum_eq_npvAux (c0 r : ℚ) (f : ℕ → ℚ) (n : ℕ) :
    (c0 :: (List.range n).map (fun i => f i / (1 + r) ^ (i + 1))).sum =
      npvAux r 0 (c0 :: (List.range n).map f) := by
  simp only [List.sum_cons, npvAux, pow_zero, div_one, Nat.zero_add, zero_add]
  rw [npvAux_map_range]
  congr 1
  apply congrArg List.sum
  apply List.map_congr_left
  intro a _
  have hexp : a + 1 = 1 + a := by omega
  rw [hexp]

lemma fc_ongrid_getElem? (p : Params) (y : ℕ) :
    (fc_ongrid p)[y]? =
      if y = 0 then some 0
      else if y ≤ p.analysis_years then
        some (-escalated_cost p y / (1 + p.discount_rate) ^ y)
      else none := by
  rw [fc_ongrid, cons_map_range_getElem?]
  by_cases h0 : y = 0
  · simp [h0]
  · by_cases hyn : y ≤ p.analysis_years
    · rw [if_neg h0, if_pos hyn, if_neg h0, if_pos hyn]
      have hy : y - 1 + 1 = y := by omega
      rw [hy]
    · simp [h0, hyn]

/-- C1: in the richest (feed-in) variant, for every year `y` in
`1..analysis_years` the SLB scenario's nominal cash flow as computed by the
loop equals `escalated_cost(y) + escalated_revenue(y) - slb_opex` — the cost
term enters with a plus sign, exactly as in the source — and the final series
additionally carries the residual value in the last year only. -/
theorem c1_slb_nominal_sign_convention (p : Params) (y : ℕ)
    (h1 : 1 ≤ y) (h2 : y ≤ p.analysis_years) :
    (slb_cashflows_loop p)[y]? =
      some ((escalated_cost p y + escalated_revenue p y) - p.slb_opex) ∧
    (slb_cashflows p)[y]? =
      some (((escalated_cost p y + escalated_revenue p y) - p.slb_opex) +
        (if y = p.analysis_years then residual_value p else 0)) := by
  constructor
  · rw [slb_cashflows_loop, cons_map_range_getElem?, if_neg (by omega), if_pos h2]
    have hy : y - 1 + 1 = y := by omega
    rw [hy]
  · rw [slb_cashflows_getElem?, if_neg (by omega), if_pos h2]

/-- C3: for every year `y` in `0..analysis_years` and both scenarios, the
discounted cash flow at year `y` equals the nominal cash flow at year `y`
divided by `(1 + discount_rate) ^ y`, including year 0 and the residual-value
year. -/
theorem c3_discounted_eq_nominal_div_pow (p : Params) (y : ℕ)
    (hy : y ≤ p.analysis_years) :
    (∃ n, (slb_cashflows p)[y]? = some n ∧
      (fc_slb p)[y]? = some (n / (1 + p.discount_rate) ^ y)) ∧
    (∃ n, (ongrid_cashflows p)[y]? = some n ∧
      (fc_ongrid p)[y]? = some (n / (1 + p.discount_rate) ^ y)) := by
  constructor
  · by_cases h0 : y = 0
    · subst h0
      by_cases hN : p.analysis_years = 0
      · refine ⟨-slb_total_capex p + residual_value p, ?_, ?_⟩
        · rw [slb_cashflows_getElem?]
          simp [hN]
        · rw [fc_slb_getElem?]
          simp [hN, add_div]
      · refine ⟨-slb_total_capex p, ?_, ?_⟩
        · rw [slb_cashflows_getElem?]
          simp [hN]
        · rw [fc_slb_getElem?]
          simp [hN]
    · refine ⟨((escalated_cost p y + escalated_revenue p y) - p.slb_opex) +
        (if y = p.analysis_years then residual_value p else 0), ?_, ?_⟩
      · rw [slb_cashflows_getElem?, if_neg h0, if_pos hy]
      · rw [fc_slb_getElem?, if_neg h0, if_pos hy]
        by_cases hyN : y = p.analysis_years
        · subst hyN
          simp [add_div]
        · simp [hyN]
  · by_cases h0 : y = 0
    · subst h0
      refine ⟨0, ?_, ?_⟩
      · rw [ongrid_cashflows_getElem?]
        simp
      · rw [fc_ongrid_getElem?]
        simp
    · refine ⟨-escalated_cost p y, ?_, ?_⟩
      · rw [ongrid_cashflows_getElem?, if_neg h0, if_pos hy]
      · rw [fc_ongrid_getElem?, if_neg h0, if_pos hy]

/-- C4: the cumulative discounted series at year 0 is `-(capex_pv + capex_battery)`
for the SLB scenario and `0` for the grid-only scenario. -/
theorem c4_cumulative_year_zero (p : Params) (h : 1 ≤ p.analysis_years) :
    (cumsum (fc_slb p))[0]? = some (-(p.slb_capex_pv + p.slb_capex_battery)) ∧
    (cumsum (fc_ongrid p))[0]? = some 0 := by
  constructor
  · rw [cumsum_getElem?_zero, fc_slb_getElem?, if_pos rfl, if_neg (by omega)]
    rfl
  · rw [cumsum_getElem?_zero, fc_ongrid_getElem?]
    simp

/-- C5: `calculate_payback` returns the smallest index `y` at which the
running sum of the cash flows from index 0 through `y` is nonnegative, and
returns `none` exactly when the running sum stays negative at every index of
the sequence. -/
theorem c5_payback_characterization (l : List ℚ) (y : ℕ) :
    (calculate_payback l = some y ↔
      y < l.length ∧ 0 ≤ (l.take (y + 1)).sum ∧ ∀ k < y, (l.take (k + 1)).sum < 0) ∧
    (calculate_payback l = none ↔ ∀ j < l.length, (l.take (j + 1)).sum < 0) :=
  ⟨calculate_payback_eq_some l y, calculate_payback_eq_none l⟩

/-- C9: the per-year discounted SLB series of the earliest variant (V3.py,
which discounts cost and opex separately) equals, entry by entry, the
discounted SLB series of the middle variant (v4.py first script, which
discounts the net cash flow), so the earlier version is a special case of the
later one. -/
theorem c9_v3_eq_v4mid_fc_slb (p : Params) : V3.fc_slb p = V4mid.fc_slb p := by
  rw [V3.fc_slb, V4mid.fc_slb, V3.fc_slb_loop, V4mid.fc_slb_loop]
  congr 2
  apply List.map_congr_left
  intro i _
  rw [sub_div]

/-- C10: for each scenario, the NPV of the nominal cash flows at the supplied
discount rate equals the final entry (year = analysis_years) of that
scenario's cumulative discounted series. -/
theorem c10_npv_eq_final_cumulative (p : Params) :
    (cumsum (fc_slb p)).getLast? =
      some (calculate_npv p.discount_rate (slb_cashflows p)) ∧
    (cumsum (fc_ongrid p)).getLast? =
      some (calculate_npv p.discount_rate (ongrid_cashflows p)) := by
  constructor
  · rw [cumsum_getLast? _ (by
      intro hc
      have hl := fc_slb_length p
      rw [hc] at hl
      simp at hl)]
    congr 1
    rw [fc_slb, addLast_sum _ _ (by rw [fc_slb_loop]; exact List.cons_ne_nil _ _),
      calculate_npv, slb_cashflows,
      npvAux_addLast _ _ _ 0 (by rw [slb_cashflows_loop]; exact List.cons_ne_nil _ _),
      slb_cashflows_loop_length, Nat.add_sub_cancel, Nat.zero_add]
    congr 1
    rw [fc_slb_loop, slb_cashflows_loop]
    exact cons_map_range_sum_eq_npvAux _ _ _ _
  · rw [cumsum_getLast? _ (by
      intro hc
      have hl := fc_ongrid_length p
      rw [hc] at hl
      simp at hl)]
    congr 1
    rw [calculate_npv, fc_ongrid, ongrid_cashflows]
    exact cons_map_range_sum_eq_npvAux _ _ _ _

/-- C2 (amended): if the crossover year is defined it is at most
`analysis_years`, the SLB cumulative discounted value strictly exceeds the
grid-only one there, and at every earlier year the SLB value is less than or
equal to (not necessarily strictly less than) the grid-only value; the
crossover is undefined exactly when no year index within `0..analysis_years`
has SLB strictly above grid-only. -/
theorem c2_crossover_characterization (p : Params) :
    (∀ y, calculate_crossover (cumsum (fc_slb p)) (cumsum (fc_ongrid p)) = some y →
      y ≤ p.analysis_years ∧
      (∃ s g, (cumsum (fc_slb p))[y]? = some s ∧
        (cumsum (fc_ongrid p))[y]? = some g ∧ g < s) ∧
      (∀ i < y, ∀ s g, (cumsum (fc_slb p))[i]? = some s →
        (cumsum (fc_ongrid p))[i]? = some g → s ≤ g)) ∧
    (calculate_crossover (cumsum (fc_slb p)) (cumsum (fc_ongrid p)) = none ↔
      ∀ i ≤ p.analysis_years, ∀ s g, (cumsum (fc_slb p))[i]? = some s →
        (cumsum (fc_ongrid p))[i]? = some g → s ≤ g) := by
  have hzip : ((cumsum (fc_slb p)).zip (cumsum (fc_ongrid p))).length =
      p.analysis_years + 1 := by
    rw [List.length_zip, cumsum_length, cumsum_length, fc_slb_length, fc_ongrid_length,
      min_self]
  constructor
  · intro y hy
    rw [calculate_crossover, crossoverAux_eq_some] at hy
    obtain ⟨j, hj, hyj, hlt, sg, hsg, hgt⟩ := hy
    have hyj' : y = j := by omega
    subst hyj'
    rw [hzip] at hj
    rw [zip_getElem?_some_iff] at hsg
    refine ⟨by omega, ⟨sg.1, sg.2, hsg.1, hsg.2, hgt⟩, ?_⟩
    intro i hi s g hs hg
    exact hlt i hi (s, g) (by rw [zip_getElem?_some_iff]; exact ⟨hs, hg⟩)
  · rw [calculate_crossover, crossoverAux_eq_none]
    constructor
    · intro hall i hi s g hs hg
      exact hall i (by rw [hzip]; omega) (s, g)
        (by rw [zip_getElem?_some_iff]; exact ⟨hs, hg⟩)
    · intro hall k hk sg hsg
      rw [zip_getElem?_some_iff] at hsg
      rw [hzip] at hk
      exact hall k (by omega) sg.1 sg.2 hsg.1 hsg.2

/-- C6: when the `npf.irr` root-finder fails on the SLB cash flows, the
`try/except` wrapper turns the failure into `None`, and every other metric of
the block — the SLB NPV and payback, the grid-only IRR, NPV and payback, and
the crossover — is still computed exactly as without the failure. -/
theorem c6_irr_failure_is_contained (impl : List ℚ → Except Unit ℚ) (p : Params)
    (h : impl (slb_cashflows p) = Except.error ()) :
    (computeMetrics impl p).irr_slb = none ∧
    (computeMetrics impl p).npv_slb = calculate_npv p.discount_rate (slb_cashflows p) ∧
    (computeMetrics impl p).pb_slb = calculate_payback (slb_cashflows p) ∧
    (computeMetrics impl p).irr_ongrid = calculate_irr impl (ongrid_cashflows p) ∧
    (computeMetrics impl p).npv_ongrid =
      calculate_npv p.discount_rate (ongrid_cashflows p) ∧
    (computeMetrics impl p).pb_ongrid = calculate_payback (ongrid_cashflows p) ∧
    (computeMetrics impl p).crossover_point =
      calculate_crossover (cumsum (fc_slb p)) (cumsum (fc_ongrid p)) := by
  refine ⟨?_, rfl, rfl, rfl, rfl, rfl, rfl⟩
  simp [computeMetrics, calculate_irr, h]

/-- C7 (amended): changing only `discount_rate` leaves every nominal cash
flow of both scenarios, both IRRs (for any behavior of the root-finder) and
both payback years unchanged, while the NPV and the cumulative discounted
series are genuinely rate-dependent: there is an input on which changing the
rate changes both. -/
theorem c7_nominal_metrics_discount_invariant (p : Params) (r : ℚ)
    (impl : List ℚ → Except Unit ℚ) :
    slb_cashflows { p with discount_rate := r } = slb_cashflows p ∧
    ongrid_cashflows { p with discount_rate := r } = ongrid_cashflows p ∧
    calculate_irr impl (slb_cashflows { p with discount_rate := r }) =
      calculate_irr impl (slb_cashflows p) ∧
    calculate_irr impl (ongrid_cashflows { p with discount_rate := r }) =
      calculate_irr impl (ongrid_cashflows p) ∧
    calculate_payback (slb_cashflows { p with discount_rate := r }) =
      calculate_payback (slb_cashflows p) ∧
    calculate_payback (ongrid_cashflows { p with discount_rate := r }) =
      calculate_payback (ongrid_cashflows p) ∧
    (∃ (q : Params) (r2 : ℚ),
      calculate_npv r2 (slb_cashflows { q with discount_rate := r2 }) ≠
        calculate_npv q.discount_rate (slb_cashflows q) ∧
      cumsum (fc_slb { q with discount_rate := r2 }) ≠ cumsum (fc_slb q)) := by
  refine ⟨rfl, rfl, rfl, rfl, rfl, rfl, params_npv, 1, ?_, ?_⟩
  · norm_num [calculate_npv, npvAux, slb_cashflows, slb_cashflows_loop, addLast,
      escalated_cost, escalated_revenue, annual_energy, monthly_consumption,
      feed_in_tariff, energy_for_sale_per_month, residual_value, slb_total_capex,
      params_npv, List.range_succ]
  · norm_num [cumsum, cumsumAux, fc_slb, fc_slb_loop, addLast,
      escalated_cost, escalated_revenue, annual_energy, monthly_consumption,
      feed_in_tariff, energy_for_sale_per_month, residual_value, slb_total_capex,
      params_npv, List.range_succ]

/-- C8: raising `slb_opex` (all other inputs fixed) can only delay the SLB
payback year: whenever the higher-opex run has a payback year, the lower-opex
run has one at most as late. -/
theorem c8_payback_monotone_in_opex (p : Params) (o2 : ℚ) (h : p.slb_opex ≤ o2)
    (y2 : ℕ)
    (h2 : calculate_payback (slb_cashflows { p with slb_opex := o2 }) = some y2) :
    ∃ y1, y1 ≤ y2 ∧ calculate_payback (slb_cashflows p) = some y1 := by
  have hlen : (slb_cashflows p).length =
      (slb_cashflows { p with slb_opex := o2 }).length := by
    rw [slb_cashflows_length, slb_cashflows_length]
  have hpoint : ∀ (i : ℕ) (a b : ℚ), (slb_cashflows p)[i]? = some a →
      (slb_cashflows { p with slb_opex := o2 })[i]? = some b → b ≤ a := by
    intro i a b ha hb
    rw [slb_cashflows_getElem?] at ha hb
    have e1 : escalated_cost { p with slb_opex := o2 } = escalated_cost p := rfl
    have e2 : escalated_revenue { p with slb_opex := o2 } = escalated_revenue p := rfl
    have e3 : residual_value { p with slb_opex := o2 } = residual_value p := rfl
    have e4 : slb_total_capex { p with slb_opex := o2 } = slb_total_capex p := rfl
    have e5 : ({ p with slb_opex := o2 } : Params).analysis_years =
      p.analysis_years := rfl
    have e6 : ({ p with slb_opex := o2 } : Params).slb_opex = o2 := rfl
    rw [e1, e2, e3, e4, e5, e6] at hb
    by_cases h0 : i = 0
    · rw [if_pos h0] at ha hb
      by_cases hN : p.analysis_years = 0
      · rw [if_pos hN] at ha hb
        injection ha with ha'
        injection hb with hb'
        rw [← ha', ← hb']
      · rw [if_neg hN] at ha hb
        injection ha with ha'
        injection hb with hb'
        rw [← ha', ← hb']
    · rw [if_neg h0] at ha hb
      by_cases hle : i ≤ p.analysis_years
      · rw [if_pos hle] at ha hb
        injection ha with ha'
        injection hb with hb'
        rw [← ha', ← hb']
        exact add_le_add_right (sub_le_sub_left h _) _
      · rw [if_neg hle] at ha
        exact absurd ha (by simp)
  exact calculate_payback_mono _ _ hlen
    (take_sum_le_of_getElem?_le _ _ hlen hpoint) y2 h2

/-- Counterexample to C2 as stated: on `params_tie` the crossover year is 1,
yet at year 0 — strictly before the crossover — the two cumulative discounted
series are equal (both 0), not in strict `<` order. -/
theorem c2_counterexample :
    calculate_crossover (cumsum (fc_slb params_tie)) (cumsum (fc_ongrid params_tie)) =
      some 1 ∧
    (cumsum (fc_slb params_tie))[0]? = some 0 ∧
    (cumsum (fc_ongrid params_tie))[0]? = some 0 ∧
    ¬((0 : ℚ) < 0) := by
  refine ⟨?_, ?_, ?_, by norm_num⟩ <;>
    norm_num [calculate_crossover, crossoverAux, cumsum, cumsumAux, fc_slb, fc_slb_loop,
      fc_ongrid, addLast, escalated_cost, escalated_revenue, annual_energy,
      monthly_consumption, feed_in_tariff, energy_for_sale_per_month, residual_value,
      slb_total_capex, params_tie, List.range_succ, List.zip_cons_cons]

/-- Counterexample to C7 as stated: on `params_zero` every cash flow is zero,
so changing the discount rate from 0 to 1 changes neither the NPV nor the
cumulative discounted series of either scenario. -/
theorem c7_counterexample :
    params_zero.discount_rate ≠ (1 : ℚ) ∧
    calculate_npv (1 : ℚ) (slb_cashflows { params_zero with discount_rate := 1 }) =
      calculate_npv params_zero.discount_rate (slb_cashflows params_zero) ∧
    cumsum (fc_slb { params_zero with discount_rate := 1 }) =
      cumsum (fc_slb params_zero) ∧
    cumsum (fc_ongrid { params_zero with discount_rate := 1 }) =
      cumsum (fc_ongrid params_zero) := by
  refine ⟨by norm_num [params_zero], ?_, ?_, ?_⟩ <;>
    norm_num [calculate_npv, npvAux, cumsum, cumsumAux, slb_cashflows, slb_cashflows_loop,
      fc_slb, fc_slb_loop, fc_ongrid, addLast, escalated_cost, escalated_revenue,
      annual_energy, monthly_consumption, feed_in_tariff, energy_for_sale_per_month,
      residual_value, slb_total_capex, params_zero, List.range_succ]

/-- Witness for C1 at the concrete input `paramsW`, year 1. -/
theorem c1_witness :
    (slb_cashflows_loop paramsW)[1]? =
      some ((escalated_cost paramsW 1 + escalated_revenue paramsW 1) -
        paramsW.slb_opex) ∧
    (slb_cashflows paramsW)[1]? =
      some (((escalated_cost paramsW 1 + escalated_revenue paramsW 1) -
          paramsW.slb_opex) +
        (if 1 = paramsW.analysis_years then residual_value paramsW else 0)) :=
  c1_slb_nominal_sign_convention paramsW 1 (by decide) (by decide)

/-- Witness for C3 at the concrete input `paramsW`, year 2 (the residual
year). -/
theorem c3_witness :
    (∃ n, (slb_cashflows paramsW)[2]? = some n ∧
      (fc_slb paramsW)[2]? = some (n / (1 + paramsW.discount_rate) ^ 2)) ∧
    (∃ n, (ongrid_cashflows paramsW)[2]? = some n ∧
      (fc_ongrid paramsW)[2]? = some (n / (1 + paramsW.discount_rate) ^ 2)) :=
  c3_discounted_eq_nominal_div_pow paramsW 2 (by decide)

/-- Witness for C4 at the concrete input `paramsW`. -/
theorem c4_witness :
    (cumsum (fc_slb paramsW))[0]? =
      some (-(paramsW.slb_capex_pv + paramsW.slb_capex_battery)) ∧
    (cumsum (fc_ongrid paramsW))[0]? = some 0 :=
  c4_cumulative_year_zero paramsW (by decide)

/-- Witness for C6 at the concrete input `paramsW` with the always-failing
root-finder. -/
theorem c6_witness :
    (computeMetrics implFail paramsW).irr_slb = none ∧
    (computeMetrics implFail paramsW).npv_slb =
      calculate_npv paramsW.discount_rate (slb_cashflows paramsW) ∧
    (computeMetrics implFail paramsW).pb_slb =
      calculate_payback (slb_cashflows paramsW) ∧
    (computeMetrics implFail paramsW).irr_ongrid =
      calculate_irr implFail (ongrid_cashflows paramsW) ∧
    (computeMetrics implFail paramsW).npv_ongrid =
      calculate_npv paramsW.discount_rate (ongrid_cashflows paramsW) ∧
    (computeMetrics implFail paramsW).pb_ongrid =
      calculate_payback (ongrid_cashflows paramsW) ∧
    (computeMetrics implFail paramsW).crossover_point =
      calculate_crossover (cumsum (fc_slb paramsW)) (cumsum (fc_ongrid paramsW)) :=
  c6_irr_failure_is_contained implFail paramsW rfl

/-- Witness for C8 at the concrete input `paramsW`, with equal opex in both
runs and payback year 2 in the second run. -/
theorem c8_witness :
    ∃ y1, y1 ≤ 2 ∧ calculate_payback (slb_cashflows paramsW) = some y1 :=
  c8_payback_monotone_in_opex paramsW 5 (le_refl _) 2 (by
    norm_num [calculate_payback, paybackAux, slb_cashflows, slb_cashflows_loop, addLast,
      escalated_cost, escalated_revenue, annual_energy, monthly_consumption,
      feed_in_tariff, energy_for_sale_per_month, residual_value, slb_total_capex,
      paramsW, List.range_succ])

end SLB
